import Mathlib

/-
Shallow embedding of the prediction-and-scoring core of the building-energy
anomaly service (backend/app/services/scoring_service.py, routers/settings.py,
services/prediction_service.py, utils/feature_engineering.py).

Conventions of the embedding:
* Python floats are modelled as exact numbers: metric inputs as ℚ, values that
  pass through `np.exp` / `np.sqrt` as ℝ.  A float `NaN`/`inf` produced by a
  zero denominator is modelled as `none` of an `Option`.
* `numpy` population statistics (`ndarray.std`, `np.std`) are `popStd`;
  Python `round(x, d)` is `roundTo`/`roundToR` (the half-even versus half-away
  tie rule is immaterial to every statement proved here).
* Python dicts keyed by building number or utility are association lists in
  insertion order; their keys are unique, so `dict.get` lookups that the code
  performs on same-keyed dicts are positional.
-/

/-- Mean of a list of reals (`ndarray.mean`: sum divided by length). -/
noncomputable def listMean (l : List ℝ) : ℝ := l.sum / l.length

/-- Population variance, `ndarray.var`: mean of squared deviations. -/
noncomputable def popVar (l : List ℝ) : ℝ :=
  ((l.map (fun x => (x - listMean l) ^ 2)).sum) / l.length

/-- Population standard deviation, `ndarray.std` / `np.std`. -/
noncomputable def popStd (l : List ℝ) : ℝ := Real.sqrt (popVar l)

/-- `_sigmoid(x) = 1.0 / (1.0 + np.exp(-x))`. -/
noncomputable def sigmoid (x : ℝ) : ℝ := 1 / (1 + Real.exp (-x))

/-- Square root with zero replaced by one: the scoring code replaces a zero
column standard deviation by `1.0` before dividing (`stds[stds == 0] = 1.0`). -/
noncomputable def sqrtD (x : ℝ) : ℝ :=
  if Real.sqrt x = 0 then 1 else Real.sqrt x

/-- Z-score of a value against a column, with the column standard deviation
replaced by one when it is zero (`(matrix - means) / stds` after
`stds[stds == 0] = 1.0`). -/
noncomputable def zval (col : List ℝ) (x : ℝ) : ℝ :=
  (x - listMean col) / (if popStd col = 0 then 1 else popStd col)

/-- Python `round(x, d)` on a rational: round to `d` decimal digits. -/
def roundTo (d : ℕ) (x : ℚ) : ℚ := ((round (x * 10 ^ d) : ℤ) : ℚ) / 10 ^ d

/-- Python `round(x, d)` on a real. -/
noncomputable def roundToR (d : ℕ) (x : ℝ) : ℝ := ((round (x * 10 ^ d) : ℤ) : ℝ) / 10 ^ d

/-- `np.clip(x, 0, 1)`. -/
noncomputable def clip01 (x : ℝ) : ℝ := min (max x 0) 1

/-- `np.argsort` over a list of values with a linear order: the list of
indices `0 .. n-1` sorted by value (ties broken by index; `numpy`'s tie order
is unspecified and no property proved here depends on it). -/
def argsortD {α : Type} [LinearOrder α] (dflt : α) (v : List α) : List ℕ :=
  List.insertionSort
    (fun i j => v.getD i dflt < v.getD j dflt ∨ (v.getD i dflt = v.getD j dflt ∧ i ≤ j))
    (List.range v.length)

/-- `_percentile_ranks(values)`: for `n ≤ 1` all zeros, otherwise
`argsort(argsort(values)) / (n - 1)`. -/
def percentile_ranks (values : List ℚ) : List ℚ :=
  if values.length ≤ 1 then values.map (fun _ => 0)
  else (argsortD 0 (argsortD 0 values)).map
    (fun r : ℕ => (r : ℚ) / ((values.length : ℚ) - 1))

/-- The cached per-building metric record built by
`ScoringService._compute_metrics` (one entry of `self._metrics[utility]`). -/
structure Metrics where
  mean_residual : ℚ
  mean_abs_residual : ℚ
  std_residual : ℚ
  positive_ratio : ℚ
  latest_actual : ℚ
  latest_predicted : ℚ
  latest_diff : ℚ
  excess_ratio : ℚ
  consistency : ℚ
  peak_excess : ℚ
  weather_sensitivity : ℚ
  total_excess_energy : ℚ
  volatility : ℚ
  gross_area : ℚ
  n_observations : ℕ
deriving DecidableEq, Inhabited

/-- One z-scored signal column of `_score_multi_signal_weighted`'s matrix. -/
noncomputable def signal_col (f : Metrics → ℚ) (P : List Metrics) : List ℝ :=
  P.map (fun m => ((f m : ℚ) : ℝ))

/-- The weighted sum of the five z-scored signals for one building
(`z_scores @ weights` with `SIGNAL_WEIGHTS`). -/
noncomputable def msw_weighted_sum (P : List Metrics) (m : Metrics) : ℝ :=
  (3 / 10) * zval (signal_col Metrics.excess_ratio P) (m.excess_ratio : ℝ)
    + (1 / 5) * zval (signal_col Metrics.consistency P) (m.consistency : ℝ)
    + (1 / 5) * zval (signal_col Metrics.peak_excess P) (m.peak_excess : ℝ)
    + (3 / 20) * zval (signal_col Metrics.weather_sensitivity P) (m.weather_sensitivity : ℝ)
    + (3 / 20) * zval (signal_col Metrics.volatility P) (m.volatility : ℝ)

/-- `_score_multi_signal_weighted`: z-score five signals across the portfolio,
take their weighted average, squash through the sigmoid. -/
noncomputable def score_multi_signal_weighted (P : List Metrics) : List ℝ :=
  P.map (fun m => sigmoid (msw_weighted_sum P m))

/-- `_score_investment_impact`: `max(mean_residual * gross_area, 0)` per
building, then percentile ranks. -/
def score_investment_impact (P : List Metrics) : List ℚ :=
  percentile_ranks (P.map (fun m => max (m.mean_residual * m.gross_area) 0))

/-- `_score_zscore_portfolio`: z-score `mean_abs_residual` against the
portfolio mean and standard deviation, then sigmoid; every building scores
`0.5` when the portfolio standard deviation is zero. -/
noncomputable def score_zscore_portfolio (P : List Metrics) : List ℝ :=
  let values := signal_col Metrics.mean_abs_residual P
  if popStd values = 0 then P.map (fun _ => 1 / 2)
  else P.map (fun m =>
    sigmoid (((m.mean_abs_residual : ℚ) - listMean values) / popStd values))

/-- `_score_multi_signal_percentile`: percentile-rank each of the five
weighted signals, then take the unweighted mean of the five ranks per row. -/
def score_multi_signal_percentile (P : List Metrics) : List ℚ :=
  let cols := [P.map Metrics.excess_ratio, P.map Metrics.consistency,
    P.map Metrics.peak_excess, P.map Metrics.weather_sensitivity,
    P.map Metrics.volatility].map percentile_ranks
  (List.range P.length).map (fun i => (cols.map (fun c => c.getD i 0)).sum / 5)

/-- The mutable threshold triple (`ScoringService._thresholds`). -/
structure Thresholds where
  caution : ℚ
  warning : ℚ
  anomaly : ℚ
deriving DecidableEq

/-- `DEFAULT_THRESHOLDS = {"caution": 0.6, "warning": 0.8, "anomaly": 0.9}`. -/
def DEFAULT_THRESHOLDS : Thresholds := ⟨3 / 5, 4 / 5, 9 / 10⟩

/-- `_status_from_score`. -/
noncomputable def status_from_score (score : ℝ) (t : Thresholds) : String :=
  if score < (t.caution : ℝ) then "normal"
  else if score < (t.warning : ℝ) then "caution"
  else if score < (t.anomaly : ℝ) then "warning"
  else "anomaly"

/-- `ScoringService._compute_confidence`, as a function of the metric record's
`n_observations` and `std_residual` and of the caller's `portfolio_std`. -/
noncomputable def compute_confidence (n_observations : ℕ)
    (std_residual portfolio_std : ℝ) : String :=
  if n_observations < 96 then "low"
  else if n_observations < 672 ∧ 0 < portfolio_std ∧ 2 * portfolio_std < std_residual then "low"
  else if n_observations < 672 then "medium"
  else if 0 < portfolio_std ∧ (3 / 2) * portfolio_std < std_residual then "medium"
  else "high"

/-- The confidence rule exactly as the claim states it, clause by clause:
low when `n < 96`; low when `n < 672` and `portfolio_std > 0` and
`std_residual > 2 × portfolio_std`; medium for all other `n < 672`; medium
when `n ≥ 672` and `std_residual > 1.5 × portfolio_std` (this clause, read
verbatim, carries no `portfolio_std > 0` guard); high otherwise. -/
noncomputable def confidence_per_claim (n_observations : ℕ)
    (std_residual portfolio_std : ℝ) : String :=
  if n_observations < 96
      ∨ (n_observations < 672 ∧ 0 < portfolio_std ∧ 2 * portfolio_std < std_residual) then
    "low"
  else if n_observations < 672
      ∨ (672 ≤ n_observations ∧ (3 / 2) * portfolio_std < std_residual) then
    "medium"
  else "high"

/-- The confidence rule of the claim amended with the `portfolio_std > 0`
guard on the `n ≥ 672` medium clause (the one change the code forces). -/
noncomputable def confidence_per_amended_claim (n_observations : ℕ)
    (std_residual portfolio_std : ℝ) : String :=
  if n_observations < 96
      ∨ (n_observations < 672 ∧ 0 < portfolio_std ∧ 2 * portfolio_std < std_residual) then
    "low"
  else if n_observations < 672
      ∨ (672 ≤ n_observations ∧ 0 < portfolio_std ∧ (3 / 2) * portfolio_std < std_residual) then
    "medium"
  else "high"

/-- One entry of the per-signal explainability dict
(`_compute_signal_details`). -/
structure SignalDetail where
  value : ℚ
  percentile : ℚ
  label : String
  description : String
deriving DecidableEq

/-- `float(np.mean(all_vals <= val))` when the portfolio is non-empty,
`0.5` otherwise. -/
def signalPct (vals : List ℚ) (v : ℚ) : ℚ :=
  if vals.length = 0 then 1 / 2
  else ((vals.filter (fun x => x ≤ v)).length : ℚ) / vals.length

/-- One signal's detail record: rounded raw value, rounded percentile, and the
static `SIGNAL_META` label and description. -/
def signal_detail_for (m : Metrics) (all : List Metrics) (f : Metrics → ℚ)
    (label description : String) : SignalDetail :=
  { value := roundTo 6 (f m),
    percentile := roundTo 4 (signalPct (all.map f) (f m)),
    label := label,
    description := description }

/-- `_compute_signal_details`: the five reported signals in order. -/
def compute_signal_details (m : Metrics) (all : List Metrics) :
    List (String × SignalDetail) :=
  [("excess_ratio", signal_detail_for m all Metrics.excess_ratio "Excess Ratio"
      "How much more energy this building uses compared to what was predicted"),
   ("positive_ratio", signal_detail_for m all Metrics.positive_ratio
      "Overconsumption Frequency"
      "How often the building uses more energy than expected (higher = more frequent waste)"),
   ("consistency", signal_detail_for m all Metrics.consistency "Consistency"
      "Whether the excess energy use is a daily pattern, not just occasional spikes"),
   ("weather_sensitivity", signal_detail_for m all Metrics.weather_sensitivity
      "Weather Sensitivity"
      "Whether the building's energy waste gets worse with extreme temperatures"),
   ("peak_excess", signal_detail_for m all Metrics.peak_excess "Peak Excess"
      "How severe the worst energy waste moments are")]

/-- `method_map.get(scoring_method, self._score_multi_signal_weighted)`:
dispatch on the method name, any unrecognized name falling back to
`multi_signal_weighted`. -/
noncomputable def method_scores_for (scoring_method : String) (P : List Metrics) : List ℝ :=
  if scoring_method = "investment_impact" then
    (score_investment_impact P).map (fun q : ℚ => (q : ℝ))
  else if scoring_method = "zscore_portfolio" then score_zscore_portfolio P
  else if scoring_method = "multi_signal_percentile" then
    (score_multi_signal_percentile P).map (fun q : ℚ => (q : ℝ))
  else score_multi_signal_weighted P

/-- The `BuildingScore` dataclass. -/
structure BuildingScore where
  building_number : ℤ
  utility : String
  score : ℝ
  status : String
  mean_residual : ℚ
  mean_abs_residual : ℚ
  std_residual : ℚ
  positive_ratio : ℚ
  latest_actual : ℚ
  latest_predicted : ℚ
  latest_diff : ℚ
  investment_score : ℝ
  confidence : String
  rank : ℕ
  total_buildings : ℕ
  signals : List (String × SignalDetail)

/-- `sorted(building_numbers, key=lambda bn: primary_scores.get(bn, 0),
reverse=True)`: the building numbers in stable descending score order. -/
noncomputable def ranked_building_numbers (bns : List ℤ) (scores : List ℝ) : List ℤ :=
  (List.insertionSort
    (fun a b : (ℕ × ℤ) × ℝ => b.2 < a.2 ∨ (b.2 = a.2 ∧ a.1.1 ≤ b.1.1))
    (bns.enum.zip scores)).map (fun x => x.1.2)

/-- The per-building record construction of `get_building_scores` over a
non-empty cached portfolio (association list of building number and metric
record, in dict insertion order), given the primary score list the dispatched
method produced. -/
noncomputable def get_building_scores_rows (t : Thresholds)
    (utility : String) (primary : List ℝ) (P : List (ℤ × Metrics)) : List BuildingScore :=
  let Ms := P.map Prod.snd
  let bns := P.map Prod.fst
  let investment := (score_investment_impact Ms).map (fun q : ℚ => (q : ℝ))
  let all_stds := Ms.map (fun m => (m.std_residual : ℝ))
  let portfolio_std := if 1 < all_stds.length then popStd all_stds else 0
  let sorted_bns := ranked_building_numbers bns primary
  (List.range P.length).map (fun i =>
    let bn := bns.getD i 0
    let m := Ms.getD i default
    let score := clip01 (primary.getD i 0)
    let inv_score := clip01 (investment.getD i 0)
    { building_number := bn,
      utility := utility,
      score := roundToR 4 score,
      status := status_from_score score t,
      mean_residual := roundTo 6 m.mean_residual,
      mean_abs_residual := roundTo 6 m.mean_abs_residual,
      std_residual := roundTo 6 m.std_residual,
      positive_ratio := roundTo 4 m.positive_ratio,
      latest_actual := roundTo 4 m.latest_actual,
      latest_predicted := roundTo 4 m.latest_predicted,
      latest_diff := roundTo 4 m.latest_diff,
      investment_score := roundToR 4 inv_score,
      confidence := compute_confidence m.n_observations (m.std_residual : ℝ) portfolio_std,
      rank := sorted_bns.indexOf bn + 1,
      total_buildings := P.length,
      signals := compute_signal_details m Ms })

/-- The body of `get_building_scores` on a cached portfolio: dispatch the
primary method, then build the records. -/
noncomputable def get_building_scores_core (t : Thresholds)
    (utility scoring_method : String) (P : List (ℤ × Metrics)) : List BuildingScore :=
  get_building_scores_rows t utility
    (method_scores_for scoring_method (P.map Prod.snd)) P

/-- The scoring service's state: current thresholds, the utilities whose
metric computation succeeded, and the per-utility metric cache. -/
structure ScoringState where
  thresholds : Thresholds
  available_utilities : List String
  metricsMap : List (String × List (ℤ × Metrics))

/-- `self._metrics.get(utility, {})`. -/
def metricsGetD (s : ScoringState) (utility : String) : List (ℤ × Metrics) :=
  ((s.metricsMap.find? (fun p => p.1 == utility)).map Prod.snd).getD []

/-- `ScoringService.get_building_scores`: empty when the utility is uncached
or its cache is empty, otherwise the record list. -/
noncomputable def get_building_scores (s : ScoringState)
    (utility scoring_method : String) : List BuildingScore :=
  match s.metricsMap.find? (fun p => p.1 == utility) with
  | none => []
  | some entry =>
    if entry.2 = [] then []
    else get_building_scores_core s.thresholds utility scoring_method entry.2

/-- `units_map.get(utility, "varies")` of `get_building_detail_scores`. -/
def units_for (u : String) : String :=
  if u = "ELECTRICITY" then "kWh"
  else if u = "GAS" then "varies"
  else if u = "HEAT" then "varies"
  else if u = "STEAM" then "kg"
  else if u = "COOLING" then "ton-hours"
  else if u = "COOLING_POWER" then "tons"
  else if u = "STEAMRATE" then "varies"
  else if u = "OIL28SEC" then "varies"
  else "varies"

/-- `confidence_order.get(c, dflt)` with
`confidence_order = {"low": 0, "medium": 1, "high": 2}`. -/
def confidence_order (c : String) (dflt : ℕ) : ℕ :=
  if c = "low" then 0 else if c = "medium" then 1 else if c = "high" then 2 else dflt

/-- One entry of the `byUtility` list of `get_building_detail_scores`. -/
structure UtilityDetail where
  utility : String
  units : String
  score : ℝ
  status : String
  latestActual : ℚ
  latestPredicted : ℚ
  latestDiff : ℚ
  meanResidual : ℚ
  stdResidual : ℚ
  investmentScore : ℝ
  investmentStatus : String
  confidence : String
  signals : List (String × SignalDetail)

/-- The loop state of `get_building_detail_scores`. -/
structure DetailAcc where
  by_utility : List UtilityDetail
  max_score : ℝ
  max_inv_score : ℝ
  overall_confidence : String
  overall_rank : Option ℕ
  overall_total : ℕ
  overall_signals : List (String × SignalDetail)
  overall_scores_by_method : List (String × ℝ)

/-- The result dict of `get_building_detail_scores`. -/
structure DetailScores where
  overallScore : ℝ
  overallStatus : String
  investmentScore : ℝ
  investmentStatus : String
  confidence : String
  rank : ℕ
  totalBuildings : ℕ
  scoresByMethod : List (String × ℝ)
  signals : List (String × SignalDetail)
  byUtility : List UtilityDetail

/-- One iteration of `get_building_detail_scores`' loop over
`self._available_utilities`: skip the utility when the building is not in its
cache, otherwise score it under all four methods and update the running
maxima, rank, signals and confidence. -/
noncomputable def detail_step (t : Thresholds) (bn : ℤ) (acc : DetailAcc)
    (utility : String) (P : List (ℤ × Metrics)) : DetailAcc :=
  if bn ∈ P.map Prod.fst then
    let Ms := P.map Prod.snd
    let bns := P.map Prod.fst
    let j := bns.indexOf bn
    let msw := (score_multi_signal_weighted Ms).getD j 0
    let inv := ((score_investment_impact Ms).map (fun q : ℚ => (q : ℝ))).getD j 0
    let zsp := (score_zscore_portfolio Ms).getD j 0
    let msp := ((score_multi_signal_percentile Ms).map (fun q : ℚ => (q : ℝ))).getD j 0
    let m := Ms.getD j default
    let score := roundToR 4 (clip01 msw)
    let inv_score := roundToR 4 (clip01 inv)
    let all_stds := Ms.map (fun x => (x.std_residual : ℝ))
    let portfolio_std := if 1 < all_stds.length then popStd all_stds else 0
    let confidence := compute_confidence m.n_observations (m.std_residual : ℝ) portfolio_std
    let sorted_bns := ranked_building_numbers bns (score_multi_signal_weighted Ms)
    let rank := if bn ∈ sorted_bns then sorted_bns.indexOf bn + 1 else bns.length
    let signals := compute_signal_details m Ms
    let ud : UtilityDetail :=
      { utility := utility,
        units := units_for utility,
        score := score,
        status := status_from_score score t,
        latestActual := roundTo 4 m.latest_actual,
        latestPredicted := roundTo 4 m.latest_predicted,
        latestDiff := roundTo 4 m.latest_diff,
        meanResidual := roundTo 6 m.mean_residual,
        stdResidual := roundTo 6 m.std_residual,
        investmentScore := inv_score,
        investmentStatus := status_from_score inv_score t,
        confidence := confidence,
        signals := signals }
    let acc1 := { acc with by_utility := acc.by_utility ++ [ud] }
    let acc2 :=
      if acc.max_score < score then
        { acc1 with
          max_score := score,
          overall_rank := some rank,
          overall_total := bns.length,
          overall_signals := signals,
          overall_scores_by_method :=
            [("multi_signal_weighted", roundToR 4 (clip01 msw)),
             ("investment_impact", roundToR 4 (clip01 inv)),
             ("zscore_portfolio", roundToR 4 (clip01 zsp)),
             ("multi_signal_percentile", roundToR 4 (clip01 msp))] }
      else acc1
    let acc3 :=
      if acc.max_inv_score < inv_score then { acc2 with max_inv_score := inv_score }
      else acc2
    if confidence_order confidence 1 < confidence_order acc.overall_confidence 2 then
      { acc3 with overall_confidence := confidence }
    else acc3
  else acc

/-- `ScoringService.get_building_detail_scores`. -/
noncomputable def get_building_detail_scores (s : ScoringState) (bn : ℤ) : DetailScores :=
  let acc := s.available_utilities.foldl
    (fun acc u => detail_step s.thresholds bn acc u (metricsGetD s u))
    ⟨[], 0, 0, "high", none, 0, [], []⟩
  { overallScore := roundToR 4 acc.max_score,
    overallStatus := status_from_score acc.max_score s.thresholds,
    investmentScore := roundToR 4 acc.max_inv_score,
    investmentStatus := status_from_score acc.max_inv_score s.thresholds,
    confidence := acc.overall_confidence,
    rank := acc.overall_rank.getD 0,
    totalBuildings := acc.overall_total,
    scoresByMethod := acc.overall_scores_by_method,
    signals := acc.overall_signals,
    byUtility := acc.by_utility }

/-- The request body of `PUT /settings/thresholds` before validation. -/
structure ThresholdsPayload where
  caution : ℚ
  warning : ℚ
  anomaly : ℚ
deriving DecidableEq

/-- The settings route `update_thresholds`: the pydantic field validators
require every field strictly between 0 and 1, `model_post_init` then requires
`caution < warning < anomaly`; only a payload passing both reaches
`ScoringService.update_thresholds`, which replaces the stored dict wholesale.
The `Bool` is `true` when the update was applied, `false` when the payload
was rejected by validation. -/
def update_thresholds_route (s : Thresholds) (p : ThresholdsPayload) : Thresholds × Bool :=
  if (0 < p.caution ∧ p.caution < 1) ∧ (0 < p.warning ∧ p.warning < 1)
      ∧ (0 < p.anomaly ∧ p.anomaly < 1) then
    if p.caution < p.warning ∧ p.warning < p.anomaly then
      (⟨p.caution, p.warning, p.anomaly⟩, true)
    else (s, false)
  else (s, false)

/-- One feature row of the GAS LSTM path, keyed like the pandas frame by
`simscode` and `readingtime` (the temporal feature columns are opaque to the
properties proved here and are represented by the key itself). -/
structure GasRow where
  simscode : ℤ
  readingtime : ℕ
  energy_per_sqft : ℚ
deriving DecidableEq, Inhabited

/-- A row of `_predict_gas_lstm`'s result frame: the input row with the
merged `predicted` column and the `residual` column; `none` models a float
`NaN` entry. -/
structure GasPred where
  simscode : ℤ
  readingtime : ℕ
  energy_per_sqft : ℚ
  predicted : Option ℚ
  residual : Option ℚ
deriving DecidableEq

/-- The group keys of `df.groupby("simscode")` (sorted, each once). -/
def gasGroupKeys (df : List GasRow) : List ℤ :=
  List.insertionSort (fun a b => a ≤ b) (df.map GasRow.simscode).dedup

/-- One building's rows in `readingtime` order
(`grp = grp.sort_values("readingtime")`). -/
def gasGroup (df : List GasRow) (c : ℤ) : List GasRow :=
  List.insertionSort (fun r s => r.readingtime ≤ s.readingtime)
    (df.filter (fun r => r.simscode = c))

/-- The sliding-window predictions of `_predict_gas_lstm`: for every building
and every window start `s` in `range(0, n - 48 + 1)` one entry
`(simscode, readingtime of the window's last row, model output)`.
`f` abstracts the normalization plus LSTM inference on one 48-row window. -/
def gasWindowPreds (f : List GasRow → ℚ) (df : List GasRow) : List (ℤ × ℕ × ℚ) :=
  (gasGroupKeys df).flatMap (fun c =>
    let g := gasGroup df c
    (List.range (g.length + 1 - 48)).map (fun s =>
      (c, (g.getD (s + 47) default).readingtime, f ((g.drop s).take 48))))

/-- `pred_df.drop_duplicates(subset=["simscode", "readingtime"], keep="last")`. -/
def dropDupKeepLast : List (ℤ × ℕ × ℚ) → List (ℤ × ℕ × ℚ)
  | [] => []
  | x :: xs =>
    if xs.any (fun y => y.1 = x.1 ∧ y.2.1 = x.2.1) then dropDupKeepLast xs
    else x :: dropDupKeepLast xs

/-- `PredictionService._predict_gas_lstm`: build the window predictions; when
there is no window, set `predicted` and `residual` to `NaN` on every row;
otherwise left-merge the predictions back on `(simscode, readingtime)` and
set `residual = energy_per_sqft - predicted` (`NaN` where unmatched). -/
def predict_gas_lstm (f : List GasRow → ℚ) (df : List GasRow) : List GasPred :=
  let keys := gasWindowPreds f df
  if keys = [] then
    df.map (fun r => ⟨r.simscode, r.readingtime, r.energy_per_sqft, none, none⟩)
  else
    let predDf := dropDupKeepLast keys
    df.map (fun r =>
      match predDf.find? (fun p => p.1 = r.simscode ∧ p.2.1 = r.readingtime) with
      | some p => ⟨r.simscode, r.readingtime, r.energy_per_sqft, some p.2.2,
          some (r.energy_per_sqft - p.2.2)⟩
      | none => ⟨r.simscode, r.readingtime, r.energy_per_sqft, none, none⟩)

/-- The `(temperature, |residual|)` pairs of the rows where both the
temperature and the residual are non-null
(`valid = temp.notna() & abs_res.notna()`). -/
def validPairs (rows : List (Option ℚ × Option ℚ)) : List (ℚ × ℚ) :=
  rows.filterMap (fun p =>
    match p.1, p.2 with
    | some t, some r => some (t, |r|)
    | _, _ => none)

/-- Sum of squared deviations from the mean. -/
noncomputable def sqDevSum (xs : List ℝ) : ℝ :=
  (xs.map (fun x => (x - listMean xs) ^ 2)).sum

/-- Sum of products of paired deviations from the respective means. -/
noncomputable def crossDevSum (xs ys : List ℝ) : ℝ :=
  ((xs.zip ys).map (fun p => (p.1 - listMean xs) * (p.2 - listMean ys))).sum

/-- The `weather_sensitivity` metric of `_compute_metrics`: zero when the
temperature column is absent or when at most 10 valid pairs exist
(`if valid.sum() > 10`), otherwise `|abs_res.corr(temp)|` with a `NaN`
correlation (a zero-variance series) mapped to zero.  The pandas Pearson
correlation is the cross deviation sum over the root of the product of the
squared deviation sums. -/
noncomputable def weather_sensitivity_of (has_temperature : Bool)
    (rows : List (Option ℚ × Option ℚ)) : ℝ :=
  if has_temperature then
    let ps := validPairs rows
    if 10 < ps.length then
      let absres := ps.map (fun p => ((p.2 : ℚ) : ℝ))
      let temps := ps.map (fun p => ((p.1 : ℚ) : ℝ))
      if sqDevSum absres = 0 ∨ sqDevSum temps = 0 then 0
      else |crossDevSum absres temps / Real.sqrt (sqDevSum absres * sqDevSum temps)|
    else 0
  else 0

/-- The absolute Pearson correlation as the claim states it: absolute cross
deviation sum divided by the product of the two deviation norms. -/
noncomputable def pearson_abs (xs ys : List ℝ) : ℝ :=
  |crossDevSum xs ys| / (Real.sqrt (sqDevSum xs) * Real.sqrt (sqDevSum ys))

/-- The normalized-target computation of `build_features`:
`df["grossarea"] = df["grossarea"].fillna(1)` (a missing metadata join result
becomes 1) followed by the float division
`df["energy_per_sqft"] = df["readingvalue"] / df["grossarea"]`.  `none`
models the non-finite float (`inf`/`NaN`) that a zero denominator produces. -/
def energy_per_sqft_target (readingvalue : ℚ) (grossarea : Option ℚ) : Option ℚ :=
  let g := grossarea.getD 1
  if g = 0 then none else some (readingvalue / g)

/-- The target as the claim (and §4.1 of the specification) states it:
gross area replaced by 1 whenever it is missing or zero, so the quotient is
always a finite number. -/
def claimed_energy_per_sqft (readingvalue : ℚ) (grossarea : Option ℚ) : ℚ :=
  let g := grossarea.getD 1
  readingvalue / (if g = 0 then 1 else g)

/-- Sample metric record for witnesses: all-zero metrics. -/
def mZero : Metrics := ⟨0, 0, 0, 0, 0, 0, 0, 0, 0, 0, 0, 0, 0, 0, 0⟩

/-- Sample metric record for witnesses: distinct non-zero signal values. -/
def mOne : Metrics := ⟨1, 2, 3, 1 / 2, 5, 4, 1, 2, 1, 3, 1 / 4, 6, 2, 100, 700⟩

/-- Ten valid `(temperature, |residual|)` sample rows with perfectly
correlated values: temperature `k`, residual `k` for `k = 0 .. 9`. -/
def rowsTen : List (Option ℚ × Option ℚ) :=
  (List.range 10).map (fun k : ℕ => (some (k : ℚ), some (k : ℚ)))

/-- C2: `update_thresholds` validates each field strictly between 0 and 1 and
`caution < warning < anomaly` atomically: a valid payload such as
`{caution: 0.5, warning: 0.7, anomaly: 0.85}` replaces the stored triple
exactly; an invalid payload such as `{caution: 0.9, warning: 0.5,
anomaly: 0.95}` is rejected and leaves the prior triple; in every case the
stored state ends as either the full old triple or the full new one, never a
partial write. -/
theorem C2_update_thresholds_atomic :
    ∀ s : Thresholds,
      update_thresholds_route s ⟨1 / 2, 7 / 10, 17 / 20⟩ = (⟨1 / 2, 7 / 10, 17 / 20⟩, true)
      ∧ update_thresholds_route s ⟨9 / 10, 1 / 2, 19 / 20⟩ = (s, false)
      ∧ (∀ p : ThresholdsPayload,
          (update_thresholds_route s p).1 = s ∨
          (update_thresholds_route s p).1 = ⟨p.caution, p.warning, p.anomaly⟩)
      ∧ (∀ p : ThresholdsPayload,
          ((0 < p.caution ∧ p.caution < 1) ∧ (0 < p.warning ∧ p.warning < 1)
              ∧ (0 < p.anomaly ∧ p.anomaly < 1))
          → (p.caution < p.warning ∧ p.warning < p.anomaly)
          → update_thresholds_route s p = (⟨p.caution, p.warning, p.anomaly⟩, true))
      ∧ (∀ p : ThresholdsPayload,
          ¬(((0 < p.caution ∧ p.caution < 1) ∧ (0 < p.warning ∧ p.warning < 1)
              ∧ (0 < p.anomaly ∧ p.anomaly < 1))
            ∧ (p.caution < p.warning ∧ p.warning < p.anomaly))
          → update_thresholds_route s p = (s, false)) := by
  intro s
  refine ⟨by norm_num [update_thresholds_route], by norm_num [update_thresholds_route],
    ?_, ?_, ?_⟩
  · intro p
    unfold update_thresholds_route
    split_ifs <;> simp
  · intro p hf ho
    unfold update_thresholds_route
    rw [if_pos hf, if_pos ho]
  · intro p hp
    unfold update_thresholds_route
    split_ifs with h1 h2
    · exact absurd ⟨h1, h2⟩ hp
    · rfl
    · rfl

/-- C2 witness: the two concrete payloads of the claim applied to the default
thresholds, plus a payload with an out-of-range field being rejected. -/
theorem C2_witness :
    update_thresholds_route ⟨3 / 5, 4 / 5, 9 / 10⟩ ⟨1 / 2, 7 / 10, 17 / 20⟩
        = (⟨1 / 2, 7 / 10, 17 / 20⟩, true)
      ∧ update_thresholds_route ⟨3 / 5, 4 / 5, 9 / 10⟩ ⟨9 / 10, 1 / 2, 19 / 20⟩
        = (⟨3 / 5, 4 / 5, 9 / 10⟩, false)
      ∧ update_thresholds_route ⟨3 / 5, 4 / 5, 9 / 10⟩ ⟨2, 1 / 2, 3 / 4⟩
        = (⟨3 / 5, 4 / 5, 9 / 10⟩, false) :=
  ⟨(C2_update_thresholds_atomic ⟨3 / 5, 4 / 5, 9 / 10⟩).1,
   (C2_update_thresholds_atomic ⟨3 / 5, 4 / 5, 9 / 10⟩).2.1,
   (C2_update_thresholds_atomic ⟨3 / 5, 4 / 5, 9 / 10⟩).2.2.2.2 ⟨2, 1 / 2, 3 / 4⟩
     (by decide)⟩

/-- C5 counterexample: with `n_observations = 672`, `std_residual = 1` and
`portfolio_std = 0` the code returns "high" while the claim's clause list
(which omits the `portfolio_std > 0` guard from the `n ≥ 672` medium clause)
demands "medium". -/
theorem C5_counterexample :
    compute_confidence 672 1 0 = "high"
      ∧ confidence_per_claim 672 1 0 = "medium"
      ∧ compute_confidence 672 1 0 ≠ confidence_per_claim 672 1 0 := by
  have h1 : compute_confidence 672 1 0 = "high" := by
    norm_num [compute_confidence]
  have h2 : confidence_per_claim 672 1 0 = "medium" := by
    norm_num [confidence_per_claim]
  refine ⟨h1, h2, ?_⟩
  rw [h1, h2]
  decide

/-- C5 (amended): the confidence label equals the claim's clause list once
the `n ≥ 672` medium clause also requires `portfolio_std > 0`; in particular
`n_observations = 95` is always "low" and `n_observations = 96` with
`std_residual ≤ 2 × portfolio_std` is always "medium". -/
theorem C5_confidence_amended :
    (∀ (n : ℕ) (std pstd : ℝ),
      compute_confidence n std pstd = confidence_per_amended_claim n std pstd)
      ∧ (∀ std pstd : ℝ, compute_confidence 95 std pstd = "low")
      ∧ (∀ std pstd : ℝ, std ≤ 2 * pstd → compute_confidence 96 std pstd = "medium") := by
  refine ⟨?_, ?_, ?_⟩
  · intro n std pstd
    unfold compute_confidence confidence_per_amended_claim
    by_cases h1 : n < 96
    · have h2 : n < 672 := by omega
      simp [h1, h2]
    · by_cases h2 : n < 672
      · by_cases hA : 0 < pstd ∧ 2 * pstd < std
        · simp [h1, h2, hA]
        · simp [h1, h2, hA]
      · have h6 : 672 ≤ n := by omega
        by_cases hB : 0 < pstd ∧ (3 / 2) * pstd < std
        · simp [h1, h2, h6, hB]
        · simp [h1, h2, h6, hB]
  · intro std pstd
    unfold compute_confidence
    norm_num
  · intro std pstd h
    unfold compute_confidence
    have h96 : ¬ (96 : ℕ) < 96 := by omega
    have h672 : (96 : ℕ) < 672 := by omega
    have hA : ¬ (0 < pstd ∧ 2 * pstd < std) := by
      rintro ⟨-, hlt⟩
      linarith
    simp [h96, h672, hA]

/-- C5 witness: the amended equality and the two boundary examples evaluated
at concrete inputs. -/
theorem C5_witness :
    compute_confidence 700 2 1 = confidence_per_amended_claim 700 2 1
      ∧ compute_confidence 95 3 1 = "low"
      ∧ compute_confidence 96 0 0 = "medium" :=
  ⟨C5_confidence_amended.1 700 2 1,
   C5_confidence_amended.2.1 3 1,
   C5_confidence_amended.2.2 0 0 (by simp)⟩

/-- C7: the code fills only a missing gross area with 1 before dividing, so a
building whose metadata carries gross area exactly 0 makes
`energy_per_sqft = readingvalue / 0`, a non-finite float — while the claim
(and §4.1 of the specification) requires a zero gross area to be replaced by
1, which would give the finite value `readingvalue`.  A missing gross area
and a non-zero one behave as the claim says. -/
theorem C7_zero_gross_area_not_replaced :
    energy_per_sqft_target 5 (some 0) = none
      ∧ claimed_energy_per_sqft 5 (some 0) = 5
      ∧ energy_per_sqft_target 5 none = some 5
      ∧ energy_per_sqft_target 5 (some 2) = some (5 / 2) := by
  refine ⟨by norm_num [energy_per_sqft_target], by norm_num [claimed_energy_per_sqft],
    by norm_num [energy_per_sqft_target], by norm_num [energy_per_sqft_target]⟩

/-- The dispatch at the name of the default method selects
`_score_multi_signal_weighted`. -/
lemma method_scores_for_default (P : List Metrics) :
    method_scores_for "multi_signal_weighted" P = score_multi_signal_weighted P := by
  unfold method_scores_for
  rw [if_neg (by decide), if_neg (by decide), if_neg (by decide)]

/-- The dispatch at any name outside the four recognized ones falls back to
`_score_multi_signal_weighted` (`method_map.get`'s default). -/
lemma method_scores_for_unknown (scoring_method : String)
    (h : scoring_method ∉ ["multi_signal_weighted", "investment_impact",
      "zscore_portfolio", "multi_signal_percentile"]) (P : List Metrics) :
    method_scores_for scoring_method P = score_multi_signal_weighted P := by
  have h1 : scoring_method ≠ "investment_impact" := fun e => h (by simp [e])
  have h2 : scoring_method ≠ "zscore_portfolio" := fun e => h (by simp [e])
  have h3 : scoring_method ≠ "multi_signal_percentile" := fun e => h (by simp [e])
  unfold method_scores_for
  rw [if_neg h1, if_neg h2, if_neg h3]

/-- C9: `get_building_scores` called with a scoring-method string outside the
four recognized names raises no error and returns exactly the record list of
the `multi_signal_weighted` method. -/
theorem C9_unknown_method_defaults :
    ∀ (s : ScoringState) (utility scoring_method : String),
      scoring_method ∉ ["multi_signal_weighted", "investment_impact",
        "zscore_portfolio", "multi_signal_percentile"] →
      get_building_scores s utility scoring_method
        = get_building_scores s utility "multi_signal_weighted" := by
  intro s utility scoring_method h
  unfold get_building_scores
  cases hf : s.metricsMap.find? (fun p => p.1 == utility) with
  | none => rfl
  | some entry =>
    simp only [get_building_scores_core]
    rw [method_scores_for_unknown scoring_method h, method_scores_for_default]

/-- C9 witness: the unrecognized name "bogus" on a one-building cache. -/
theorem C9_witness :
    get_building_scores
        ⟨DEFAULT_THRESHOLDS, ["ELECTRICITY"], [("ELECTRICITY", [(311, mOne)])]⟩
        "ELECTRICITY" "bogus"
      = get_building_scores
        ⟨DEFAULT_THRESHOLDS, ["ELECTRICITY"], [("ELECTRICITY", [(311, mOne)])]⟩
        "ELECTRICITY" "multi_signal_weighted" :=
  C9_unknown_method_defaults _ "ELECTRICITY" "bogus" (by decide)

/-- A utility whose cache does not contain the requested building leaves the
loop state of `get_building_detail_scores` untouched. -/
lemma detail_step_skip (t : Thresholds) (bn : ℤ) (acc : DetailAcc)
    (utility : String) (P : List (ℤ × Metrics)) (h : bn ∉ P.map Prod.fst) :
    detail_step t bn acc utility P = acc := by
  unfold detail_step
  rw [if_neg h]

/-- `roundToR` of zero is zero. -/
lemma roundToR_zero (d : ℕ) : roundToR d 0 = 0 := by
  simp [roundToR]

/-- C10: for a building number present in no utility's cached metrics,
`get_building_detail_scores` raises no error and returns overall score 0,
investment score 0, confidence "high", rank 0, zero total buildings, empty
method scores and signals, an empty `byUtility` list, and statuses derived
from score 0 under the current thresholds. -/
theorem C10_missing_building_detail :
    ∀ (s : ScoringState) (bn : ℤ),
      (∀ u ∈ s.available_utilities, bn ∉ (metricsGetD s u).map Prod.fst) →
      get_building_detail_scores s bn =
        { overallScore := 0,
          overallStatus := status_from_score 0 s.thresholds,
          investmentScore := 0,
          investmentStatus := status_from_score 0 s.thresholds,
          confidence := "high",
          rank := 0,
          totalBuildings := 0,
          scoresByMethod := [],
          signals := [],
          byUtility := [] } := by
  intro s bn h
  have hfold : ∀ (l : List String) (acc : DetailAcc),
      (∀ u ∈ l, bn ∉ (metricsGetD s u).map Prod.fst) →
      l.foldl (fun acc u => detail_step s.thresholds bn acc u (metricsGetD s u)) acc
        = acc := by
    intro l
    induction l with
    | nil => intro acc _; rfl
    | cons a tl ih =>
      intro acc hl
      rw [List.foldl_cons, detail_step_skip _ _ _ _ _ (hl a (by simp))]
      exact ih acc (fun u hu => hl u (by simp [hu]))
  unfold get_building_detail_scores
  rw [hfold s.available_utilities _ h]
  simp [roundToR_zero]

/-- C10 witness: a one-utility cache holding only building 311, queried for
building 7. -/
theorem C10_witness :
    get_building_detail_scores
        ⟨DEFAULT_THRESHOLDS, ["ELECTRICITY"], [("ELECTRICITY", [(311, mOne)])]⟩ 7 =
      { overallScore := 0,
        overallStatus := status_from_score 0 DEFAULT_THRESHOLDS,
        investmentScore := 0,
        investmentStatus := status_from_score 0 DEFAULT_THRESHOLDS,
        confidence := "high",
        rank := 0,
        totalBuildings := 0,
        scoresByMethod := [],
        signals := [],
        byUtility := [] } :=
  C10_missing_building_detail
    ⟨DEFAULT_THRESHOLDS, ["ELECTRICITY"], [("ELECTRICITY", [(311, mOne)])]⟩ 7
    (by decide)

/-- `argsort` always produces a permutation of the index range, ties or not. -/
lemma argsortD_perm_range {α : Type} [LinearOrder α] (dflt : α) (v : List α) :
    (argsortD dflt v).Perm (List.range v.length) :=
  List.perm_insertionSort _ _

/-- `argsort` preserves the length. -/
lemma argsortD_length {α : Type} [LinearOrder α] (dflt : α) (v : List α) :
    (argsortD dflt v).length = v.length := by
  rw [(argsortD_perm_range dflt v).length_eq, List.length_range]

/-- `_percentile_ranks` over more than one value is a permutation of
`{0, 1/(n-1), …, 1}`. -/
lemma percentile_ranks_perm (values : List ℚ) (hn : 1 < values.length) :
    (percentile_ranks values).Perm
      ((List.range values.length).map
        (fun k : ℕ => (k : ℚ) / ((values.length : ℚ) - 1))) := by
  unfold percentile_ranks
  rw [if_neg (by omega)]
  have h1 : (argsortD 0 (argsortD 0 values)).Perm (List.range values.length) := by
    have h := argsortD_perm_range (0 : ℕ) (argsortD (0 : ℚ) values)
    rwa [argsortD_length] at h
  exact h1.map _

/-- C4: over an `n`-building portfolio with `n > 1` the investment-impact
scores are exactly the multiset `{0, 1/(n-1), …, 1}` — each value once, even
under ties — and over a single building the score is `0`. -/
theorem C4_investment_scores_partition :
    ∀ P : List Metrics,
      (1 < P.length →
        (score_investment_impact P).Perm
          ((List.range P.length).map (fun k : ℕ => (k : ℚ) / ((P.length : ℚ) - 1)))
        ∧ (score_investment_impact P).Nodup)
      ∧ (P.length = 1 → score_investment_impact P = [0]) := by
  intro P
  constructor
  · intro hn
    have hlen : (P.map (fun m => max (m.mean_residual * m.gross_area) 0)).length
        = P.length := List.length_map _ _
    have hperm := percentile_ranks_perm
      (P.map (fun m => max (m.mean_residual * m.gross_area) 0)) (by omega)
    rw [hlen] at hperm
    refine ⟨hperm, ?_⟩
    have hnd : ((List.range P.length).map
        (fun k : ℕ => (k : ℚ) / ((P.length : ℚ) - 1))).Nodup := by
      refine List.Nodup.map ?_ (List.nodup_range P.length)
      intro a b hab
      have hc : ((P.length : ℚ) - 1) ≠ 0 := by
        have h2 : (2 : ℚ) ≤ (P.length : ℚ) := by exact_mod_cast hn
        intro h0
        nlinarith
      field_simp at hab
      exact_mod_cast hab
    exact hperm.nodup_iff.mpr hnd
  · intro h1
    unfold score_investment_impact percentile_ranks
    have hlen : (P.map (fun m => max (m.mean_residual * m.gross_area) 0)).length = 1 := by
      rw [List.length_map, h1]
    rw [if_pos (by omega)]
    obtain ⟨x, hx⟩ := List.length_eq_one.mp hlen
    rw [hx]
    rfl

/-- C4 witness: a two-building portfolio, scores a permutation of `{0, 1}`,
and a one-building portfolio scoring `[0]`. -/
theorem C4_witness :
    (score_investment_impact [mZero, mOne]).Perm
        ((List.range ([mZero, mOne] : List Metrics).length).map
          (fun k : ℕ => (k : ℚ) / ((([mZero, mOne] : List Metrics).length : ℚ) - 1)))
      ∧ score_investment_impact [mOne] = [0] :=
  ⟨((C4_investment_scores_partition [mZero, mOne]).1 (by decide)).1,
   (C4_investment_scores_partition [mOne]).2 (by decide)⟩

/-- Every window-prediction entry comes from a building whose (sorted) group
has at least the sequence length of 48 rows: `range(0, n - 48 + 1)` is empty
for shorter groups. -/
lemma gasWindowPreds_group_long (f : List GasRow → ℚ) (df : List GasRow) :
    ∀ e ∈ gasWindowPreds f df, 48 ≤ (gasGroup df e.1).length := by
  intro e he
  simp only [gasWindowPreds, List.mem_flatMap, List.mem_map, List.mem_range] at he
  obtain ⟨c, _, s, hs, rfl⟩ := he
  simp only
  omega

/-- Dropping duplicate keys keeps a subset of the entries. -/
lemma dropDupKeepLast_subset (l : List (ℤ × ℕ × ℚ)) :
    ∀ x ∈ dropDupKeepLast l, x ∈ l := by
  induction l with
  | nil => intro x hx; exact absurd hx (by simp [dropDupKeepLast])
  | cons a tl ih =>
    intro x hx
    unfold dropDupKeepLast at hx
    split_ifs at hx with h
    · exact List.mem_cons_of_mem a (ih x hx)
    · rcases List.mem_cons.mp hx with h1 | h1
      · exact h1 ▸ List.mem_cons_self a tl
      · exact List.mem_cons_of_mem a (ih x h1)

/-- The output frame of `_predict_gas_lstm` holds exactly the input rows'
keys and actual values, in order, whatever the predictions are. -/
lemma predict_gas_lstm_rows (f : List GasRow → ℚ) (df : List GasRow) :
    (predict_gas_lstm f df).map (fun p => (p.simscode, p.readingtime, p.energy_per_sqft))
      = df.map (fun r => (r.simscode, r.readingtime, r.energy_per_sqft)) := by
  unfold predict_gas_lstm
  by_cases hk : gasWindowPreds f df = []
  · rw [if_pos hk, List.map_map]
    rfl
  · rw [if_neg hk, List.map_map]
    refine List.map_congr_left ?_
    intro r _
    simp only [Function.comp_apply]
    cases hfind : (dropDupKeepLast (gasWindowPreds f df)).find?
        (fun p => p.1 = r.simscode ∧ p.2.1 = r.readingtime) <;>
      rfl

/-- C8 (amended): on the GAS sequence-model path, a building with fewer than
48 timesteps gets no prediction: every one of its rows appears in the output
of `_predict_gas_lstm` with `NaN` (`none`) `predicted` and `residual` values,
the remaining rows and their keys are preserved, and no error is raised. -/
theorem C8_short_building_rows_nan :
    ∀ (f : List GasRow → ℚ) (df : List GasRow) (b : ℤ),
      (gasGroup df b).length < 48 →
      ((predict_gas_lstm f df).Forall
        (fun p => p.simscode = b → p.predicted = none ∧ p.residual = none))
      ∧ (predict_gas_lstm f df).map
          (fun p => (p.simscode, p.readingtime, p.energy_per_sqft))
        = df.map (fun r => (r.simscode, r.readingtime, r.energy_per_sqft)) := by
  intro f df b hshort
  refine ⟨?_, predict_gas_lstm_rows f df⟩
  rw [List.forall_iff_forall_mem]
  intro p hp
  unfold predict_gas_lstm at hp
  by_cases hk : gasWindowPreds f df = []
  · rw [if_pos hk, List.mem_map] at hp
    obtain ⟨r, _, rfl⟩ := hp
    exact fun _ => ⟨rfl, rfl⟩
  · rw [if_neg hk, List.mem_map] at hp
    obtain ⟨r, _, rfl⟩ := hp
    cases hfind : (dropDupKeepLast (gasWindowPreds f df)).find?
        (fun p => p.1 = r.simscode ∧ p.2.1 = r.readingtime) with
    | none => exact fun _ => ⟨rfl, rfl⟩
    | some q =>
      intro hb
      have hb' : r.simscode = b := hb
      exfalso
      have hq1 : q ∈ dropDupKeepLast (gasWindowPreds f df) :=
        List.mem_of_find?_eq_some hfind
      have hq2 := List.find?_some hfind
      have hq3 : q.1 = r.simscode := (of_decide_eq_true hq2).1
      have hmem : q ∈ gasWindowPreds f df := dropDupKeepLast_subset _ q hq1
      have hlong := gasWindowPreds_group_long f df q hmem
      rw [hq3, hb'] at hlong
      omega

/-- C8 counterexample: a single GAS building with one feature row (fewer than
the 48-step sequence length) is not absent from the output — its row is
returned, carrying `NaN` (`none`) `predicted` and `residual` values. -/
theorem C8_counterexample :
    predict_gas_lstm (fun _ => 0) [⟨7, 0, 1⟩] = [⟨7, 0, 1, none, none⟩]
      ∧ (7 : ℤ) ∈ (predict_gas_lstm (fun _ => 0) [⟨7, 0, 1⟩]).map GasPred.simscode := by
  decide

/-- C8 witness: the amended statement at the one-row building. -/
theorem C8_witness :
    ((predict_gas_lstm (fun _ => 0) [(⟨7, 0, 1⟩ : GasRow)]).Forall
        (fun p => p.simscode = 7 → p.predicted = none ∧ p.residual = none))
      ∧ (predict_gas_lstm (fun _ => 0) [(⟨7, 0, 1⟩ : GasRow)]).map
          (fun p => (p.simscode, p.readingtime, p.energy_per_sqft))
        = [(⟨7, 0, 1⟩ : GasRow)].map (fun r => (r.simscode, r.readingtime, r.energy_per_sqft)) :=
  C8_short_building_rows_nan (fun _ => 0) [⟨7, 0, 1⟩] 7 (by decide)

/-- Zipping a list with itself and mapping a binary function is mapping its
diagonal. -/
lemma zip_self_map (l : List ℝ) (g : ℝ → ℝ → ℝ) :
    (l.zip l).map (fun p => g p.1 p.2) = l.map (fun x => g x x) := by
  induction l with
  | nil => rfl
  | cons a tl ih => simpa using ih

/-- The cross deviation sum of a list with itself is its squared deviation
sum. -/
lemma crossDevSum_self (xs : List ℝ) : crossDevSum xs xs = sqDevSum xs := by
  unfold crossDevSum sqDevSum
  rw [zip_self_map xs (fun a b => (a - listMean xs) * (b - listMean xs))]
  congr 1
  refine List.map_congr_left fun x _ => ?_
  ring

/-- A list of nonnegative reals summing to zero is all zeros. -/
lemma list_sum_nonneg_all_zero (l : List ℝ) (h : ∀ x ∈ l, 0 ≤ x)
    (hs : l.sum = 0) : ∀ x ∈ l, x = 0 := by
  induction l with
  | nil => simp
  | cons a tl ih =>
    have ha : 0 ≤ a := h a (by simp)
    have htl : 0 ≤ tl.sum := List.sum_nonneg (fun x hx => h x (by simp [hx]))
    rw [List.sum_cons] at hs
    have ha0 : a = 0 := by linarith
    intro x hx
    rcases List.mem_cons.mp hx with rfl | hx
    · exact ha0
    · exact ih (fun y hy => h y (by simp [hy])) (by linarith) x hx

/-- Squared deviation sums are nonnegative. -/
lemma sqDevSum_nonneg (xs : List ℝ) : 0 ≤ sqDevSum xs :=
  List.sum_nonneg (by
    intro x hx
    obtain ⟨y, _, rfl⟩ := List.mem_map.mp hx
    positivity)

/-- A zero squared deviation sum forces every element onto the mean. -/
lemma sqDevSum_eq_zero_imp (xs : List ℝ) (h : sqDevSum xs = 0) :
    ∀ x ∈ xs, x = listMean xs := by
  intro x hx
  have hz := list_sum_nonneg_all_zero (xs.map (fun x => (x - listMean xs) ^ 2))
    (by
      intro y hy
      obtain ⟨z, _, rfl⟩ := List.mem_map.mp hy
      positivity)
    h ((x - listMean xs) ^ 2) (List.mem_map_of_mem _ hx)
  have := pow_eq_zero_iff (n := 2) (by omega) |>.mp hz
  linarith [sub_eq_zero.mp this]

/-- The absolute Pearson correlation of a list with itself is one when the
deviations do not vanish. -/
lemma pearson_abs_self (xs : List ℝ) (h : sqDevSum xs ≠ 0) :
    pearson_abs xs xs = 1 := by
  unfold pearson_abs
  rw [crossDevSum_self]
  have hpos : 0 < sqDevSum xs := lt_of_le_of_ne (sqDevSum_nonneg xs) (Ne.symm h)
  rw [abs_of_pos hpos, Real.mul_self_sqrt hpos.le]
  exact div_self h

/-- C6 counterexample: a group with exactly 10 valid (temperature, residual)
pairs and perfect correlation.  The claim demands the metric equal the
absolute Pearson correlation (here 1) at "at least 10" valid pairs, but the
code's `valid.sum() > 10` guard returns 0. -/
theorem C6_counterexample :
    (validPairs rowsTen).length = 10
      ∧ weather_sensitivity_of true rowsTen = 0
      ∧ pearson_abs ((validPairs rowsTen).map (fun p : ℚ × ℚ => ((p.2 : ℚ) : ℝ)))
          ((validPairs rowsTen).map (fun p : ℚ × ℚ => ((p.1 : ℚ) : ℝ))) = 1 := by
  have hlen : ¬ (10 < (validPairs rowsTen).length) := by decide
  refine ⟨by decide, ?_, ?_⟩
  · simp only [weather_sensitivity_of, if_true]
    rw [if_neg hlen]
  · have hlist : validPairs rowsTen
        = (List.range 10).map (fun k : ℕ => ((k : ℚ), (k : ℚ))) := by decide
    have heq : (validPairs rowsTen).map (fun p : ℚ × ℚ => ((p.2 : ℚ) : ℝ))
        = (validPairs rowsTen).map (fun p : ℚ × ℚ => ((p.1 : ℚ) : ℝ)) := by
      rw [hlist, List.map_map, List.map_map]
      rfl
    rw [heq]
    refine pearson_abs_self _ ?_
    intro h0
    have hall := sqDevSum_eq_zero_imp _ h0
    have hm0 : ((0 : ℚ) : ℝ)
        ∈ (validPairs rowsTen).map (fun p : ℚ × ℚ => ((p.1 : ℚ) : ℝ)) := by
      rw [hlist, List.map_map]
      exact List.mem_map.mpr ⟨0, by simp, by norm_num⟩
    have hm1 : ((1 : ℚ) : ℝ)
        ∈ (validPairs rowsTen).map (fun p : ℚ × ℚ => ((p.1 : ℚ) : ℝ)) := by
      rw [hlist, List.map_map]
      exact List.mem_map.mpr ⟨1, by simp, by norm_num⟩
    have e0 := hall _ hm0
    have e1 := hall _ hm1
    rw [← e1] at e0
    norm_num at e0

/-- C6 (amended): the `weather_sensitivity` metric equals the absolute
Pearson correlation between `|residual|` and temperature whenever there are
strictly more than 10 valid pairs (at least 11) and neither series is
constant, and equals 0 when there are at most 10 valid pairs, when the
temperature column is absent, or when the correlation is `NaN` (a
zero-variance series). -/
theorem C6_weather_sensitivity_amended :
    ∀ (has_temperature : Bool) (rows : List (Option ℚ × Option ℚ)),
      (has_temperature = true → 10 < (validPairs rows).length →
        sqDevSum ((validPairs rows).map (fun p : ℚ × ℚ => ((p.2 : ℚ) : ℝ))) ≠ 0 →
        sqDevSum ((validPairs rows).map (fun p : ℚ × ℚ => ((p.1 : ℚ) : ℝ))) ≠ 0 →
        weather_sensitivity_of has_temperature rows
          = pearson_abs
              ((validPairs rows).map (fun p : ℚ × ℚ => ((p.2 : ℚ) : ℝ)))
              ((validPairs rows).map (fun p : ℚ × ℚ => ((p.1 : ℚ) : ℝ))))
      ∧ ((validPairs rows).length ≤ 10 →
          weather_sensitivity_of has_temperature rows = 0)
      ∧ (has_temperature = false → weather_sensitivity_of has_temperature rows = 0)
      ∧ (has_temperature = true → 10 < (validPairs rows).length →
          (sqDevSum ((validPairs rows).map (fun p : ℚ × ℚ => ((p.2 : ℚ) : ℝ))) = 0
            ∨ sqDevSum ((validPairs rows).map (fun p : ℚ × ℚ => ((p.1 : ℚ) : ℝ))) = 0) →
          weather_sensitivity_of has_temperature rows = 0) := by
  intro has_temperature rows
  refine ⟨?_, ?_, ?_, ?_⟩
  · intro ht h10 ha hb
    subst ht
    simp only [weather_sensitivity_of, if_true]
    rw [if_pos h10, if_neg (by tauto), abs_div,
      abs_of_nonneg (Real.sqrt_nonneg _), Real.sqrt_mul (sqDevSum_nonneg _)]
    rfl
  · intro hle
    cases has_temperature with
    | false => rfl
    | true =>
      simp only [weather_sensitivity_of, if_true]
      rw [if_neg (by omega)]
  · intro ht
    subst ht
    rfl
  · intro ht h10 hz
    subst ht
    simp only [weather_sensitivity_of, if_true]
    rw [if_pos h10, if_pos hz]

/-- C6 witness: the amended zero branches evaluated at the ten-pair group. -/
theorem C6_witness :
    weather_sensitivity_of true rowsTen = 0
      ∧ weather_sensitivity_of false rowsTen = 0 :=
  ⟨(C6_weather_sensitivity_amended true rowsTen).2.1 (by decide),
   (C6_weather_sensitivity_amended false rowsTen).2.2.1 rfl⟩

/-- The sigmoid lands in `[0, 1]` (in fact in the open interval). -/
lemma sigmoid_mem_unit (x : ℝ) : 0 ≤ sigmoid x ∧ sigmoid x ≤ 1 := by
  have hd : 0 < 1 + Real.exp (-x) := by positivity
  constructor
  · rw [sigmoid]
    positivity
  · rw [sigmoid, div_le_one hd]
    have := Real.exp_pos (-x)
    linarith

/-- Every percentile rank lies in `[0, 1]`. -/
lemma percentile_ranks_mem_unit (values : List ℚ) :
    ∀ q ∈ percentile_ranks values, 0 ≤ q ∧ q ≤ 1 := by
  intro q hq
  unfold percentile_ranks at hq
  split_ifs at hq with hle
  · obtain ⟨_, _, rfl⟩ := List.mem_map.mp hq
    norm_num
  · obtain ⟨r, hr, rfl⟩ := List.mem_map.mp hq
    have hrn : r < values.length := by
      have hperm : (argsortD 0 (argsortD (0 : ℚ) values)).Perm
          (List.range values.length) := by
        have h := argsortD_perm_range (0 : ℕ) (argsortD (0 : ℚ) values)
        rwa [argsortD_length] at h
      exact List.mem_range.mp (hperm.mem_iff.mp hr)
    have hn : 1 < values.length := by omega
    have hc : (0 : ℚ) < (values.length : ℚ) - 1 := by
      have h2 : (2 : ℚ) ≤ (values.length : ℚ) := by exact_mod_cast hn
      linarith
    constructor
    · exact div_nonneg (by positivity) hc.le
    · rw [div_le_one hc]
      have : (r : ℚ) + 1 ≤ (values.length : ℚ) := by exact_mod_cast hrn
      linarith

/-- An in-range `getD` is a member of the list. -/
lemma getD_mem_of_lt {α : Type} [Inhabited α] (l : List α) (i : ℕ) (d : α)
    (h : i < l.length) : l.getD i d ∈ l := by
  rw [List.getD_eq_getElem l d h]
  exact List.getElem_mem h

/-- `np.clip(x, 0, 1)` lands in `[0, 1]`. -/
lemma clip01_mem_unit (x : ℝ) : 0 ≤ clip01 x ∧ clip01 x ≤ 1 :=
  ⟨le_min (le_max_right x 0) zero_le_one, min_le_right _ 1⟩

/-- Rounding to four decimal places keeps `[0, 1]`. -/
lemma roundToR_mem_unit (x : ℝ) (h0 : 0 ≤ x) (h1 : x ≤ 1) :
    0 ≤ roundToR 4 x ∧ roundToR 4 x ≤ 1 := by
  unfold roundToR
  have ht0 : 0 ≤ x * 10 ^ 4 := by positivity
  have ht1 : x * 10 ^ 4 ≤ 10 ^ 4 := by nlinarith
  have he : round (x * 10 ^ 4) = ⌊x * 10 ^ 4 + 1 / 2⌋ := round_eq _
  have hlo : (0 : ℤ) ≤ round (x * 10 ^ 4) := by
    rw [he]
    exact Int.le_floor.mpr (by push_cast; linarith)
  have hhi : round (x * 10 ^ 4) ≤ 10 ^ 4 := by
    rw [he]
    have : ⌊x * 10 ^ 4 + 1 / 2⌋ < 10 ^ 4 + 1 := by
      rw [Int.floor_lt]
      push_cast
      linarith
    omega
  constructor
  · apply div_nonneg _ (by positivity)
    exact_mod_cast hlo
  · rw [div_le_one (by positivity)]
    calc ((round (x * 10 ^ 4) : ℤ) : ℝ) ≤ ((10 ^ 4 : ℤ) : ℝ) := by exact_mod_cast hhi
    _ = 10 ^ 4 := by norm_num

/-- C1: every score the four methods produce lies in `[0, 1]`, and the
`score` and `investment_score` fields of every record `get_building_scores`
returns lie in `[0, 1]`. -/
theorem C1_scores_in_unit_interval :
    ∀ (P : List Metrics) (s : ScoringState) (utility scoring_method : String),
      ((score_multi_signal_weighted P).Forall (fun x => 0 ≤ x ∧ x ≤ 1))
      ∧ ((score_investment_impact P).Forall (fun q => 0 ≤ q ∧ q ≤ 1))
      ∧ ((score_zscore_portfolio P).Forall (fun x => 0 ≤ x ∧ x ≤ 1))
      ∧ ((score_multi_signal_percentile P).Forall (fun q => 0 ≤ q ∧ q ≤ 1))
      ∧ ((get_building_scores s utility scoring_method).Forall
          (fun b => (0 ≤ b.score ∧ b.score ≤ 1)
            ∧ (0 ≤ b.investment_score ∧ b.investment_score ≤ 1))) := by
  intro P s utility scoring_method
  refine ⟨?_, ?_, ?_, ?_, ?_⟩
  · rw [List.forall_iff_forall_mem]
    intro x hx
    obtain ⟨m, _, rfl⟩ := List.mem_map.mp hx
    exact sigmoid_mem_unit _
  · rw [List.forall_iff_forall_mem]
    intro q hq
    exact percentile_ranks_mem_unit _ q hq
  · rw [List.forall_iff_forall_mem]
    intro x hx
    simp only [score_zscore_portfolio] at hx
    split_ifs at hx
    · obtain ⟨m, _, rfl⟩ := List.mem_map.mp hx
      norm_num
    · obtain ⟨m, _, rfl⟩ := List.mem_map.mp hx
      exact sigmoid_mem_unit _
  · rw [List.forall_iff_forall_mem]
    intro q hq
    unfold score_multi_signal_percentile at hq
    obtain ⟨i, _, rfl⟩ := List.mem_map.mp hq
    set cols := [P.map Metrics.excess_ratio, P.map Metrics.consistency,
      P.map Metrics.peak_excess, P.map Metrics.weather_sensitivity,
      P.map Metrics.volatility].map percentile_ranks with hcols
    have hb : ∀ y ∈ cols.map (fun c => c.getD i 0), 0 ≤ y ∧ y ≤ 1 := by
      intro y hy
      obtain ⟨c, hc, rfl⟩ := List.mem_map.mp hy
      obtain ⟨v, _, rfl⟩ := List.mem_map.mp hc
      rcases Nat.lt_or_ge i (percentile_ranks v).length with h | h
      · exact percentile_ranks_mem_unit v _ (getD_mem_of_lt _ i 0 h)
      · rw [List.getD_eq_default _ _ h]
        norm_num
    have h0 : 0 ≤ (cols.map (fun c => c.getD i 0)).sum :=
      List.sum_nonneg (fun y hy => (hb y hy).1)
    have h5 : (cols.map (fun c => c.getD i 0)).sum ≤ 5 := by
      have hle := List.sum_le_card_nsmul (cols.map (fun c => c.getD i 0)) 1
        (fun y hy => (hb y hy).2)
      have hlen : (cols.map (fun c => c.getD i 0)).length = 5 := by
        rw [List.length_map, hcols, List.length_map]
        rfl
      rw [hlen] at hle
      simpa using hle
    constructor
    · exact div_nonneg h0 (by norm_num)
    · rw [div_le_one (by norm_num)]
      exact h5
  · rw [List.forall_iff_forall_mem]
    intro b hb
    unfold get_building_scores at hb
    revert hb
    cases hfind : s.metricsMap.find? (fun p => p.1 == utility) with
    | none => intro hb; exact absurd hb (List.not_mem_nil b)
    | some entry =>
      intro hb
      replace hb : b ∈ (if entry.2 = [] then []
        else get_building_scores_core s.thresholds utility scoring_method entry.2) := hb
      split_ifs at hb
      · exact absurd hb (List.not_mem_nil b)
      · unfold get_building_scores_core get_building_scores_rows at hb
        obtain ⟨i, _, rfl⟩ := List.mem_map.mp hb
        exact ⟨roundToR_mem_unit _ (clip01_mem_unit _).1 (clip01_mem_unit _).2,
          roundToR_mem_unit _ (clip01_mem_unit _).1 (clip01_mem_unit _).2⟩

/-- The sigmoid is monotone. -/
lemma sigmoid_mono {x y : ℝ} (h : x ≤ y) : sigmoid x ≤ sigmoid y := by
  unfold sigmoid
  have h1 : Real.exp (-y) ≤ Real.exp (-x) := Real.exp_le_exp.mpr (by linarith)
  have h2 : 0 < 1 + Real.exp (-y) := by positivity
  exact one_div_le_one_div_of_le h2 (by linarith)

/-- Setting one entry shifts the sum by the difference of values. -/
lemma sum_set_of_lt (l : List ℝ) :
    ∀ (i : ℕ), i < l.length → ∀ (a : ℝ),
      (l.set i a).sum = l.sum - l.getD i 0 + a := by
  induction l with
  | nil => intro i hi; exact absurd hi (by simp)
  | cons x tl ih =>
    intro i hi a
    cases i with
    | zero => simp [List.sum_cons]; ring
    | succ n =>
      have hn : n < tl.length := by simpa using hi
      simp only [List.set, List.sum_cons, List.getD_cons_succ, ih n hn a]
      ring

/-- Setting an entry to its own value changes nothing. -/
lemma set_getD_self (l : List ℝ) :
    ∀ (i : ℕ), i < l.length → l.set i (l.getD i 0) = l := by
  induction l with
  | nil => intro i hi; exact absurd hi (by simp)
  | cons x tl ih =>
    intro i hi
    cases i with
    | zero => simp
    | succ n =>
      have hn : n < tl.length := by simpa using hi
      simp only [List.set, List.getD_cons_succ, ih n hn]

/-- `getD` through a `map`, in range. -/
lemma getD_map_of_lt {α β : Type} (f : α → β) (l : List α) (i : ℕ) (d : β)
    (e : α) (h : i < l.length) : (l.map f).getD i d = f (l.getD i e) := by
  rw [List.getD_eq_getElem _ _ (by simpa using h), List.getD_eq_getElem _ _ h,
    List.getElem_map]

/-- `getD` at a freshly set position, in range. -/
lemma getD_set_self {α : Type} (l : List α) (i : ℕ) (a d : α)
    (h : i < l.length) : (l.set i a).getD i d = a := by
  rw [List.getD_eq_getElem _ _ (by simpa using h), List.getElem_set_self]

/-- Expansion of a sum of squared deviations. -/
lemma sum_sq_sub_expand (l : List ℝ) (μ : ℝ) :
    (l.map (fun x => (x - μ) ^ 2)).sum
      = (l.map (fun x => x ^ 2)).sum - 2 * μ * l.sum + l.length * μ ^ 2 := by
  induction l with
  | nil => simp
  | cons a tl ih =>
    simp only [List.map_cons, List.sum_cons, ih, List.length_cons]
    push_cast
    ring

/-- Population variance as mean of squares minus squared mean. -/
lemma popVar_eq_sumsq (l : List ℝ) :
    popVar l = (l.map (fun x => x ^ 2)).sum / l.length - (listMean l) ^ 2 := by
  rcases eq_or_ne l [] with rfl | hne
  · simp [popVar, listMean]
  · have hn : (l.length : ℝ) ≠ 0 := by
      have := List.length_pos.mpr hne
      positivity
    unfold popVar listMean
    rw [sum_sq_sub_expand l (l.sum / l.length)]
    field_simp
    ring

/-- Population variance is nonnegative. -/
lemma popVar_nonneg (l : List ℝ) : 0 ≤ popVar l := by
  unfold popVar
  apply div_nonneg _ (by positivity)
  exact List.sum_nonneg (by
    intro x hx
    obtain ⟨y, _, rfl⟩ := List.mem_map.mp hx
    positivity)

/-- A vanishing population variance forces every element onto the mean. -/
lemma popVar_eq_zero_imp (l : List ℝ) (hne : l ≠ []) (h : popVar l = 0) :
    ∀ x ∈ l, x = listMean l := by
  have hn : (0 : ℝ) < l.length := by
    have := List.length_pos.mpr hne
    positivity
  have hsum : (l.map (fun x => (x - listMean l) ^ 2)).sum = 0 := by
    unfold popVar at h
    rcases div_eq_zero_iff.mp h with h0 | h0
    · exact h0
    · exact absurd h0 (by positivity)
  intro x hx
  have hz := list_sum_nonneg_all_zero (l.map (fun x => (x - listMean l) ^ 2))
    (by
      intro y hy
      obtain ⟨z, _, rfl⟩ := List.mem_map.mp hy
      positivity)
    hsum ((x - listMean l) ^ 2) (List.mem_map_of_mem _ hx)
  have := pow_eq_zero_iff (n := 2) (by omega) |>.mp hz
  linarith [sub_eq_zero.mp this]

/-- Monotonicity of `d ↦ c·d / sqrtD (a·d² + b)` for nonnegative `a`, `b`,
`c`: the shape every z-score takes as a function of its own entry once the
portfolio mean and deviation are re-expanded. -/
lemma zratio_mono (c a b : ℝ) (hc : 0 ≤ c) (ha : 0 ≤ a) (hb : 0 ≤ b)
    {d e : ℝ} (hde : d ≤ e) :
    c * d / sqrtD (a * d ^ 2 + b) ≤ c * e / sqrtD (a * e ^ 2 + b) := by
  rcases eq_or_lt_of_le hc with hc0 | hcpos
  · rw [← hc0]
    simp
  rcases eq_or_lt_of_le hb with hb0 | hbpos
  · rcases eq_or_lt_of_le ha with ha0 | hapos
    · rw [← hb0, ← ha0]
      have h1 : sqrtD (0 * d ^ 2 + 0) = 1 := by simp [sqrtD]
      have h2 : sqrtD (0 * e ^ 2 + 0) = 1 := by simp [sqrtD]
      rw [h1, h2, div_one, div_one]
      exact mul_le_mul_of_nonneg_left hde hcpos.le
    · have hval : ∀ x : ℝ, c * x / sqrtD (a * x ^ 2 + b)
          = if 0 < x then c / Real.sqrt a
            else if x = 0 then 0 else -(c / Real.sqrt a) := by
        intro x
        have hb0' : b = 0 := hb0.symm
        have hsa : Real.sqrt a ≠ 0 := ne_of_gt (Real.sqrt_pos.mpr hapos)
        rcases lt_trichotomy x 0 with hx | rfl | hx
        · have hsq : Real.sqrt (a * x ^ 2 + b) = Real.sqrt a * (-x) := by
            rw [hb0', add_zero, Real.sqrt_mul hapos.le, Real.sqrt_sq_eq_abs,
              abs_of_neg hx]
          have hden : 0 < Real.sqrt a * (-x) :=
            mul_pos (Real.sqrt_pos.mpr hapos) (by linarith)
          rw [sqrtD, hsq, if_neg (ne_of_gt hden)]
          rw [if_neg (by linarith), if_neg (by linarith)]
          rw [div_eq_iff (ne_of_gt hden)]
          field_simp
          ring
        · rw [hb0']
          simp [sqrtD]
        · have hsq : Real.sqrt (a * x ^ 2 + b) = Real.sqrt a * x := by
            rw [hb0', add_zero, Real.sqrt_mul hapos.le, Real.sqrt_sq_eq_abs,
              abs_of_pos hx]
          have hden : 0 < Real.sqrt a * x :=
            mul_pos (Real.sqrt_pos.mpr hapos) hx
          rw [sqrtD, hsq, if_neg (ne_of_gt hden), if_pos hx]
          rw [div_eq_iff (ne_of_gt hden)]
          field_simp
          ring
      rw [hval d, hval e]
      have hca : 0 ≤ c / Real.sqrt a := div_nonneg hcpos.le (Real.sqrt_nonneg a)
      by_cases g1 : 0 < d
      · have g2 : 0 < e := lt_of_lt_of_le g1 hde
        rw [if_pos g1, if_pos g2]
      · by_cases g2 : d = 0
        · subst g2
          rw [if_neg g1, if_pos rfl]
          by_cases g3 : 0 < e
          · rw [if_pos g3]
            exact hca
          · have g4 : e = 0 := le_antisymm (not_lt.mp g3) hde
            rw [if_neg g3, if_pos g4]
        · have hdneg : d < 0 := lt_of_le_of_ne (not_lt.mp g1) g2
          rw [if_neg g1, if_neg g2]
          by_cases g3 : 0 < e
          · rw [if_pos g3]
            linarith
          · by_cases g4 : e = 0
            · rw [if_neg g3, if_pos g4]
              linarith
            · rw [if_neg g3, if_neg g4]
  · have hd2 : 0 < a * d ^ 2 + b := by nlinarith [sq_nonneg d]
    have he2 : 0 < a * e ^ 2 + b := by nlinarith [sq_nonneg e]
    have hsd : sqrtD (a * d ^ 2 + b) = Real.sqrt (a * d ^ 2 + b) := by
      rw [sqrtD, if_neg (ne_of_gt (Real.sqrt_pos.mpr hd2))]
    have hse : sqrtD (a * e ^ 2 + b) = Real.sqrt (a * e ^ 2 + b) := by
      rw [sqrtD, if_neg (ne_of_gt (Real.sqrt_pos.mpr he2))]
    rw [hsd, hse, div_le_div_iff (Real.sqrt_pos.mpr hd2) (Real.sqrt_pos.mpr he2)]
    have key : d * Real.sqrt (a * e ^ 2 + b) ≤ e * Real.sqrt (a * d ^ 2 + b) := by
      rcases le_or_lt 0 d with hd0 | hd0
      · have he0 : 0 ≤ e := le_trans hd0 hde
        have h1 : 0 ≤ d * Real.sqrt (a * e ^ 2 + b) :=
          mul_nonneg hd0 (Real.sqrt_nonneg _)
        have h2 : 0 ≤ e * Real.sqrt (a * d ^ 2 + b) :=
          mul_nonneg he0 (Real.sqrt_nonneg _)
        have hsq : (d * Real.sqrt (a * e ^ 2 + b)) ^ 2
            ≤ (e * Real.sqrt (a * d ^ 2 + b)) ^ 2 := by
          rw [mul_pow, mul_pow, Real.sq_sqrt he2.le, Real.sq_sqrt hd2.le]
          have hdd : d ^ 2 ≤ e ^ 2 := by nlinarith
          nlinarith [mul_le_mul_of_nonneg_left hdd hbpos.le]
        exact (pow_le_pow_iff_left₀ h1 h2 (by norm_num)).mp hsq
      · rcases le_or_lt 0 e with he0 | he0
        · have hL : d * Real.sqrt (a * e ^ 2 + b) ≤ 0 :=
            mul_nonpos_of_nonpos_of_nonneg hd0.le (Real.sqrt_nonneg _)
          have hR : 0 ≤ e * Real.sqrt (a * d ^ 2 + b) :=
            mul_nonneg he0 (Real.sqrt_nonneg _)
          linarith
        · have hne : 0 ≤ -e := by linarith
          have hnd : 0 ≤ -d := by linarith
          have h1 : 0 ≤ (-e) * Real.sqrt (a * d ^ 2 + b) :=
            mul_nonneg hne (Real.sqrt_nonneg _)
          have h2 : 0 ≤ (-d) * Real.sqrt (a * e ^ 2 + b) :=
            mul_nonneg hnd (Real.sqrt_nonneg _)
          have hsq : ((-e) * Real.sqrt (a * d ^ 2 + b)) ^ 2
              ≤ ((-d) * Real.sqrt (a * e ^ 2 + b)) ^ 2 := by
            rw [mul_pow, mul_pow, Real.sq_sqrt hd2.le, Real.sq_sqrt he2.le]
            have hee : e ^ 2 ≤ d ^ 2 := by nlinarith
            nlinarith [mul_le_mul_of_nonneg_left hee hbpos.le]
          have hkey := (pow_le_pow_iff_left₀ h1 h2 (by norm_num)).mp hsq
          nlinarith [hkey]
    calc c * d * Real.sqrt (a * e ^ 2 + b)
        = c * (d * Real.sqrt (a * e ^ 2 + b)) := by ring
      _ ≤ c * (e * Real.sqrt (a * d ^ 2 + b)) :=
          mul_le_mul_of_nonneg_left key hcpos.le
      _ = c * e * Real.sqrt (a * d ^ 2 + b) := by ring

/-- Mean of a list after setting one entry. -/
lemma mean_set_of_lt (l : List ℝ) (i : ℕ) (hi : i < l.length) (u : ℝ) :
    listMean (l.set i u) = (l.sum - l.getD i 0 + u) / l.length := by
  unfold listMean
  rw [sum_set_of_lt l i hi u, List.length_set]

/-- Sum of squares after setting one entry. -/
lemma sumsq_set_of_lt (l : List ℝ) (i : ℕ) (hi : i < l.length) (u : ℝ) :
    ((l.set i u).map (fun x => x ^ 2)).sum
      = (l.map (fun x => x ^ 2)).sum - l.getD i 0 ^ 2 + u ^ 2 := by
  rw [List.map_set, sum_set_of_lt (l.map (fun x => x ^ 2)) i (by simpa using hi) (u ^ 2),
    getD_map_of_lt (fun x => x ^ 2) l i 0 0 hi]

/-- The deviation of the set entry from the new mean, re-expanded around the
mean of the remaining entries. -/
lemma numer_set_repr (l : List ℝ) (i : ℕ) (hi : i < l.length)
    (hn2 : 2 ≤ l.length) (u : ℝ) :
    u - listMean (l.set i u)
      = ((l.length : ℝ) - 1) / (l.length : ℝ)
          * (u - (l.sum - l.getD i 0) / ((l.length : ℝ) - 1)) := by
  have hge : (2 : ℝ) ≤ (l.length : ℝ) := by exact_mod_cast hn2
  have hn0 : (l.length : ℝ) ≠ 0 := by linarith
  have hn1 : (l.length : ℝ) - 1 ≠ 0 := by linarith
  rw [mean_set_of_lt l i hi u]
  field_simp
  ring

/-- The population variance after setting one entry, re-expanded as a
quadratic in the deviation of the new value from the mean of the remaining
entries; the constant coefficients do not depend on the new value. -/
lemma popVar_set_repr (l : List ℝ) (i : ℕ) (hi : i < l.length)
    (hn2 : 2 ≤ l.length) (u : ℝ) :
    popVar (l.set i u)
      = ((l.length : ℝ) - 1) / (l.length : ℝ) ^ 2
          * (u - (l.sum - l.getD i 0) / ((l.length : ℝ) - 1)) ^ 2
        + ((l.length : ℝ) * ((l.map (fun x => x ^ 2)).sum - l.getD i 0 ^ 2)
            - (l.sum - l.getD i 0) ^ 2 * (l.length : ℝ) / ((l.length : ℝ) - 1))
          / (l.length : ℝ) ^ 2 := by
  have hge : (2 : ℝ) ≤ (l.length : ℝ) := by exact_mod_cast hn2
  have hn0 : (l.length : ℝ) ≠ 0 := by linarith
  have hn1 : (l.length : ℝ) - 1 ≠ 0 := by linarith
  rw [popVar_eq_sumsq, sumsq_set_of_lt l i hi u, mean_set_of_lt l i hi u,
    List.length_set]
  field_simp
  ring

/-- The constant term of the re-expanded variance is nonnegative: it is the
variance of the portfolio whose entry `i` was moved onto the mean of the
others. -/
lemma popVar_set_b_nonneg (l : List ℝ) (i : ℕ) (hi : i < l.length)
    (hn2 : 2 ≤ l.length) :
    0 ≤ ((l.length : ℝ) * ((l.map (fun x => x ^ 2)).sum - l.getD i 0 ^ 2)
        - (l.sum - l.getD i 0) ^ 2 * (l.length : ℝ) / ((l.length : ℝ) - 1))
      / (l.length : ℝ) ^ 2 := by
  have h := popVar_nonneg (l.set i ((l.sum - l.getD i 0) / ((l.length : ℝ) - 1)))
  rw [popVar_set_repr l i hi hn2 _] at h
  simpa using h

/-- The z-score of the entry that was set, written as
`c·d / sqrtD (a·d² + b)` with coefficients independent of the new value. -/
lemma zval_set_repr (l : List ℝ) (i : ℕ) (hi : i < l.length)
    (hn2 : 2 ≤ l.length) (u : ℝ) :
    zval (l.set i u) u
      = ((l.length : ℝ) - 1) / (l.length : ℝ)
          * (u - (l.sum - l.getD i 0) / ((l.length : ℝ) - 1))
        / sqrtD (((l.length : ℝ) - 1) / (l.length : ℝ) ^ 2
            * (u - (l.sum - l.getD i 0) / ((l.length : ℝ) - 1)) ^ 2
          + ((l.length : ℝ) * ((l.map (fun x => x ^ 2)).sum - l.getD i 0 ^ 2)
              - (l.sum - l.getD i 0) ^ 2 * (l.length : ℝ) / ((l.length : ℝ) - 1))
            / (l.length : ℝ) ^ 2) := by
  unfold zval popStd
  rw [numer_set_repr l i hi hn2 u, popVar_set_repr l i hi hn2 u]
  rfl

/-- Raising the entry at `i` never lowers its own z-score, even though the
column mean and deviation are recomputed.  The `n = 1` column is constant
zero; for `n ≥ 2` the score is `c·d/sqrtD(a·d²+b)` in the deviation `d`. -/
lemma zval_set_mono (l : List ℝ) (i : ℕ) (hi : i < l.length) {u : ℝ}
    (h : l.getD i 0 ≤ u) :
    zval l (l.getD i 0) ≤ zval (l.set i u) u := by
  rcases Nat.lt_or_ge l.length 2 with hlt | hn2
  · have h1 : l.length = 1 := by omega
    obtain ⟨x, rfl⟩ := List.length_eq_one.mp h1
    have hi0 : i = 0 := by
      simp only [List.length_singleton] at hi
      omega
    subst hi0
    simp [zval, listMean]
  · have h1 := zval_set_repr l i hi hn2 (l.getD i 0)
    rw [set_getD_self l i hi] at h1
    have h2 := zval_set_repr l i hi hn2 u
    rw [h1, h2]
    have hge : (2 : ℝ) ≤ (l.length : ℝ) := by exact_mod_cast hn2
    apply zratio_mono
    · apply div_nonneg <;> linarith
    · apply div_nonneg
      · linarith
      · positivity
    · exact popVar_set_b_nonneg l i hi hn2
    · exact sub_le_sub_right h _

/-- A signal column has one entry per building. -/
lemma signal_col_length (f : Metrics → ℚ) (P : List Metrics) :
    (signal_col f P).length = P.length := List.length_map _ _

/-- Setting a building's metrics sets its entry of each signal column. -/
lemma signal_col_set (f : Metrics → ℚ) (P : List Metrics) (i : ℕ) (m' : Metrics) :
    signal_col f (P.set i m') = (signal_col f P).set i ((f m' : ℚ) : ℝ) := by
  unfold signal_col
  exact List.map_set

/-- The column entry of building `i`. -/
lemma signal_col_getD (f : Metrics → ℚ) (P : List Metrics) (i : ℕ)
    (hi : i < P.length) :
    (signal_col f P).getD i 0 = ((f (P.getD i default) : ℚ) : ℝ) := by
  unfold signal_col
  exact getD_map_of_lt _ P i 0 default hi

/-- Raising one signal of one building never lowers that building's z-score
for the signal's column. -/
lemma zval_signal_mono (f : Metrics → ℚ) (P : List Metrics) (i : ℕ)
    (hi : i < P.length) (m' : Metrics)
    (h : f (P.getD i default) ≤ f m') :
    zval (signal_col f P) ((f (P.getD i default) : ℚ) : ℝ)
      ≤ zval (signal_col f (P.set i m')) ((f m' : ℚ) : ℝ) := by
  have hi' : i < (signal_col f P).length := by
    rw [signal_col_length]
    exact hi
  have hle : (signal_col f P).getD i 0 ≤ ((f m' : ℚ) : ℝ) := by
    rw [signal_col_getD f P i hi]
    exact_mod_cast h
  have h1 := zval_set_mono (signal_col f P) i hi' hle
  rw [signal_col_getD f P i hi] at h1
  rw [signal_col_set f P i m']
  exact h1

/-- The `multi_signal_weighted` score of building `i`. -/
lemma msw_score_getD (P : List Metrics) (i : ℕ) (hi : i < P.length) :
    (score_multi_signal_weighted P).getD i 0
      = sigmoid (msw_weighted_sum P (P.getD i default)) := by
  unfold score_multi_signal_weighted
  exact getD_map_of_lt _ P i 0 default hi

/-- Raising any subset of building `i`'s five weighted signals never lowers
its `multi_signal_weighted` score. -/
lemma msw_set_mono (P : List Metrics) (i : ℕ) (hi : i < P.length) (m' : Metrics)
    (h1 : (P.getD i default).excess_ratio ≤ m'.excess_ratio)
    (h2 : (P.getD i default).consistency ≤ m'.consistency)
    (h3 : (P.getD i default).peak_excess ≤ m'.peak_excess)
    (h4 : (P.getD i default).weather_sensitivity ≤ m'.weather_sensitivity)
    (h5 : (P.getD i default).volatility ≤ m'.volatility) :
    (score_multi_signal_weighted P).getD i 0
      ≤ (score_multi_signal_weighted (P.set i m')).getD i 0 := by
  have hi' : i < (P.set i m').length := by simpa using hi
  rw [msw_score_getD P i hi, msw_score_getD (P.set i m') i hi',
    getD_set_self P i m' default hi]
  apply sigmoid_mono
  unfold msw_weighted_sum
  have t1 := zval_signal_mono Metrics.excess_ratio P i hi m' h1
  have t2 := zval_signal_mono Metrics.consistency P i hi m' h2
  have t3 := zval_signal_mono Metrics.peak_excess P i hi m' h3
  have t4 := zval_signal_mono Metrics.weather_sensitivity P i hi m' h4
  have t5 := zval_signal_mono Metrics.volatility P i hi m' h5
  exact add_le_add (add_le_add (add_le_add (add_le_add
    (mul_le_mul_of_nonneg_left t1 (by norm_num))
    (mul_le_mul_of_nonneg_left t2 (by norm_num)))
    (mul_le_mul_of_nonneg_left t3 (by norm_num)))
    (mul_le_mul_of_nonneg_left t4 (by norm_num)))
    (mul_le_mul_of_nonneg_left t5 (by norm_num))

/-- The sigmoid at zero. -/
lemma sigmoid_zero_half : sigmoid 0 = 1 / 2 := by
  unfold sigmoid
  rw [neg_zero, Real.exp_zero]
  norm_num

/-- The `zscore_portfolio` score of building `i` in uniform sigmoid form:
when the portfolio deviation vanishes the published `0.5` equals the sigmoid
of the (zero) z-score. -/
lemma zsp_score_getD (P : List Metrics) (i : ℕ) (hi : i < P.length) :
    (score_zscore_portfolio P).getD i 0
      = sigmoid (zval (signal_col Metrics.mean_abs_residual P)
          (((P.getD i default).mean_abs_residual : ℚ) : ℝ)) := by
  simp only [score_zscore_portfolio]
  split_ifs with h0
  · rw [getD_map_of_lt _ P i 0 default hi]
    have hne : signal_col Metrics.mean_abs_residual P ≠ [] := by
      intro he
      have hl := signal_col_length Metrics.mean_abs_residual P
      rw [he] at hl
      simp at hl
      omega
    have hvar : popVar (signal_col Metrics.mean_abs_residual P) = 0 := by
      unfold popStd at h0
      have hle := Real.sqrt_eq_zero'.mp h0
      exact le_antisymm hle (popVar_nonneg _)
    have hmem : (((P.getD i default).mean_abs_residual : ℚ) : ℝ)
        ∈ signal_col Metrics.mean_abs_residual P := by
      rw [← signal_col_getD Metrics.mean_abs_residual P i hi]
      exact getD_mem_of_lt _ i 0 (by
        rw [signal_col_length]
        exact hi)
    have hx := popVar_eq_zero_imp _ hne hvar _ hmem
    have hz : zval (signal_col Metrics.mean_abs_residual P)
        (((P.getD i default).mean_abs_residual : ℚ) : ℝ) = 0 := by
      unfold zval
      rw [hx, sub_self, zero_div]
    rw [hz, sigmoid_zero_half]
  · rw [getD_map_of_lt _ P i 0 default hi]
    congr 1
    unfold zval
    rw [if_neg h0]

/-- Raising building `i`'s `mean_abs_residual` never lowers its
`zscore_portfolio` score. -/
lemma zsp_set_mono (P : List Metrics) (i : ℕ) (hi : i < P.length) (m' : Metrics)
    (h : (P.getD i default).mean_abs_residual ≤ m'.mean_abs_residual) :
    (score_zscore_portfolio P).getD i 0
      ≤ (score_zscore_portfolio (P.set i m')).getD i 0 := by
  have hi' : i < (P.set i m').length := by simpa using hi
  rw [zsp_score_getD P i hi, zsp_score_getD (P.set i m') i hi',
    getD_set_self P i m' default hi]
  exact sigmoid_mono (zval_signal_mono Metrics.mean_abs_residual P i hi m' h)

/-- C3: the `multi_signal_weighted` and `zscore_portfolio` methods are
monotonic in each building's own inputs: increasing one building's value of
any of the five positively-weighted signals (respectively its
`mean_abs_residual` for `zscore_portfolio`) while holding every other metric
of every building fixed never decreases that building's score, even though
the portfolio mean and standard deviation are recomputed from the changed
values. -/
theorem C3_msw_zscore_monotonic :
    (∀ (P : List Metrics) (i : ℕ) (v : ℚ), i < P.length →
      (P.getD i default).excess_ratio ≤ v →
      (score_multi_signal_weighted P).getD i 0
        ≤ (score_multi_signal_weighted
            (P.set i { P.getD i default with excess_ratio := v })).getD i 0)
    ∧ (∀ (P : List Metrics) (i : ℕ) (v : ℚ), i < P.length →
      (P.getD i default).consistency ≤ v →
      (score_multi_signal_weighted P).getD i 0
        ≤ (score_multi_signal_weighted
            (P.set i { P.getD i default with consistency := v })).getD i 0)
    ∧ (∀ (P : List Metrics) (i : ℕ) (v : ℚ), i < P.length →
      (P.getD i default).peak_excess ≤ v →
      (score_multi_signal_weighted P).getD i 0
        ≤ (score_multi_signal_weighted
            (P.set i { P.getD i default with peak_excess := v })).getD i 0)
    ∧ (∀ (P : List Metrics) (i : ℕ) (v : ℚ), i < P.length →
      (P.getD i default).weather_sensitivity ≤ v →
      (score_multi_signal_weighted P).getD i 0
        ≤ (score_multi_signal_weighted
            (P.set i { P.getD i default with weather_sensitivity := v })).getD i 0)
    ∧ (∀ (P : List Metrics) (i : ℕ) (v : ℚ), i < P.length →
      (P.getD i default).volatility ≤ v →
      (score_multi_signal_weighted P).getD i 0
        ≤ (score_multi_signal_weighted
            (P.set i { P.getD i default with volatility := v })).getD i 0)
    ∧ (∀ (P : List Metrics) (i : ℕ) (v : ℚ), i < P.length →
      (P.getD i default).mean_abs_residual ≤ v →
      (score_zscore_portfolio P).getD i 0
        ≤ (score_zscore_portfolio
            (P.set i { P.getD i default with mean_abs_residual := v })).getD i 0) := by
  refine ⟨?_, ?_, ?_, ?_, ?_, ?_⟩
  · intro P i v hi hv
    exact msw_set_mono P i hi _ hv (le_refl _) (le_refl _) (le_refl _) (le_refl _)
  · intro P i v hi hv
    exact msw_set_mono P i hi _ (le_refl _) hv (le_refl _) (le_refl _) (le_refl _)
  · intro P i v hi hv
    exact msw_set_mono P i hi _ (le_refl _) (le_refl _) hv (le_refl _) (le_refl _)
  · intro P i v hi hv
    exact msw_set_mono P i hi _ (le_refl _) (le_refl _) (le_refl _) hv (le_refl _)
  · intro P i v hi hv
    exact msw_set_mono P i hi _ (le_refl _) (le_refl _) (le_refl _) (le_refl _) hv
  · intro P i v hi hv
    exact zsp_set_mono P i hi _ hv

/-- C3 witness: a two-building portfolio with building 0's `excess_ratio`
raised to 2 (`multi_signal_weighted`) and its `mean_abs_residual` raised to 3
(`zscore_portfolio`). -/
theorem C3_witness :
    (score_multi_signal_weighted [mZero, mOne]).getD 0 0
        ≤ (score_multi_signal_weighted
            ([mZero, mOne].set 0
              { ([mZero, mOne] : List Metrics).getD 0 default with
                excess_ratio := 2 })).getD 0 0
      ∧ (score_zscore_portfolio [mZero, mOne]).getD 0 0
        ≤ (score_zscore_portfolio
            ([mZero, mOne].set 0
              { ([mZero, mOne] : List Metrics).getD 0 default with
                mean_abs_residual := 3 })).getD 0 0 :=
  ⟨C3_msw_zscore_monotonic.1 [mZero, mOne] 0 2 (by decide) (by decide),
   C3_msw_zscore_monotonic.2.2.2.2.2 [mZero, mOne] 0 3 (by decide) (by decide)⟩
